import Mathlib

/-!
Verification of the `BridgeClient` socket client (newline-delimited JSON
frame protocol with handshake, pairing, TLS fingerprint pinning and RPC
correlation).  The definitions below are a shallow embedding of the
TypeScript source: JSON values are modelled by an inductive type, the wire
codec by an executable serializer/parser pair over character lists, and the
stateful client by explicit state passing with an effect trace (socket
writes, promise resolutions and callback notifications become `Effect`
values).
-/

namespace Bridge

mutual
/-- JSON values (numbers restricted to integers, which covers every field
of the bridge protocol's frames). -/
inductive Json where
  | null : Json
  | bool (b : Bool) : Json
  | num (n : Int) : Json
  | str (s : String) : Json
  | arr (items : JsonArr) : Json
  | obj (fields : JsonObj) : Json
deriving DecidableEq

inductive JsonArr where
  | nil : JsonArr
  | cons (hd : Json) (tl : JsonArr) : JsonArr
deriving DecidableEq

inductive JsonObj where
  | nil : JsonObj
  | cons (key : String) (val : Json) (tl : JsonObj) : JsonObj
deriving DecidableEq
end

/-- Whitespace characters recognised by the codec (JSON whitespace and the
common members of the JavaScript `trim` set). -/
def isWsChar (c : Char) : Bool :=
  c = ' ' || c = '\t' || c = '\n' || c = '\r'

/-- Decimal digit test, by code point. -/
def isDigitChar (c : Char) : Bool :=
  48 ≤ c.toNat && c.toNat ≤ 57

/-- The decimal digit character for `n < 10` (total, clamping at 9). -/
def digitChar : Nat → Char
  | 0 => '0' | 1 => '1' | 2 => '2' | 3 => '3' | 4 => '4'
  | 5 => '5' | 6 => '6' | 7 => '7' | 8 => '8' | _ + 9 => '9'

/-- Numeric value of a digit character. -/
def charVal (c : Char) : Nat := c.toNat - 48

/-- Decimal digits of a natural number, most significant first. -/
def natSer (n : Nat) : List Char :=
  if _h : n < 10 then [digitChar n]
  else natSer (n / 10) ++ [digitChar (n % 10)]
  decreasing_by exact Nat.div_lt_self (by omega) (by omega)

/-- Decimal rendering of an integer, as `JSON.stringify` / `String()`
produce it. -/
def intSer (n : Int) : List Char :=
  if n < 0 then '-' :: natSer (-n).toNat else natSer n.toNat

/-- Escaping of one character inside a JSON string literal
(`JSON.stringify` escaping, restricted to the escapes the protocol's
frames can contain). -/
def escChar (c : Char) : List Char :=
  if c = '"' then ['\\', '"']
  else if c = '\\' then ['\\', '\\']
  else if c = '\n' then ['\\', 'n']
  else if c = '\t' then ['\\', 't']
  else if c = '\r' then ['\\', 'r']
  else [c]

/-- Serialized JSON string literal (quotes plus escaped content). -/
def serString (s : String) : List Char :=
  '"' :: (s.data.map escChar).flatten ++ ['"']

mutual
/-- `JSON.stringify` for the modelled JSON values: compact rendering,
no whitespace. -/
def serJson : Json → List Char
  | .null => "null".data
  | .bool true => "true".data
  | .bool false => "false".data
  | .num n => intSer n
  | .str s => serString s
  | .arr items => '[' :: serItems items ++ [']']
  | .obj fields => '{' :: serFields fields ++ ['}']

/-- Comma-separated serialization of array elements. -/
def serItems : JsonArr → List Char
  | .nil => []
  | .cons h .nil => serJson h
  | .cons h t => serJson h ++ ',' :: serItems t

/-- Comma-separated serialization of object members. -/
def serFields : JsonObj → List Char
  | .nil => []
  | .cons k v .nil => serString k ++ ':' :: serJson v
  | .cons k v t => serString k ++ ':' :: serJson v ++ ',' :: serFields t
end

/-- Drop leading whitespace. -/
def skipWs (l : List Char) : List Char := l.dropWhile isWsChar

/-- Inverse of `escChar` on the escape letter. -/
def unescChar (c : Char) : Option Char :=
  if c = '"' then some '"'
  else if c = '\\' then some '\\'
  else if c = '/' then some '/'
  else if c = 'n' then some '\n'
  else if c = 't' then some '\t'
  else if c = 'r' then some '\r'
  else none

/-- Parse the body of a JSON string literal (opening quote already
consumed); returns the content and the remainder after the closing
quote. -/
def parseStringAux : List Char → Option (List Char × List Char)
  | [] => none
  | c :: rest =>
    if c = '"' then some ([], rest)
    else if c = '\\' then
      match rest with
      | [] => none
      | e :: rest1 =>
        match unescChar e with
        | none => none
        | some u =>
          match parseStringAux rest1 with
          | none => none
          | some (s, r) => some (u :: s, r)
    else
      match parseStringAux rest with
      | none => none
      | some (s, r) => some (c :: s, r)

/-- Digit-string value, most significant first. -/
def digitsToNat (l : List Char) : Nat :=
  l.foldl (fun a c => a * 10 + charVal c) 0

/-- Parse a run of decimal digits into a natural number. -/
def parseNatNum (l : List Char) : Option (Nat × List Char) :=
  let ds := l.takeWhile isDigitChar
  if ds.isEmpty then none
  else some (digitsToNat ds, l.dropWhile isDigitChar)

mutual
/-- Fuel-indexed JSON value parser (the model of `JSON.parse`); returns
the value and the unconsumed remainder. -/
def parseVal : Nat → List Char → Option (Json × List Char)
  | 0, _ => none
  | fuel + 1, l =>
    match skipWs l with
    | [] => none
    | c :: rest =>
      if c = 'n' then
        match rest with
        | 'u' :: 'l' :: 'l' :: r => some (.null, r)
        | _ => none
      else if c = 't' then
        match rest with
        | 'r' :: 'u' :: 'e' :: r => some (.bool true, r)
        | _ => none
      else if c = 'f' then
        match rest with
        | 'a' :: 'l' :: 's' :: 'e' :: r => some (.bool false, r)
        | _ => none
      else if c = '"' then
        match parseStringAux rest with
        | some (s, r) => some (.str (String.mk s), r)
        | none => none
      else if c = '[' then
        match skipWs rest with
        | [] => none
        | c2 :: r2 =>
          if c2 = ']' then some (.arr .nil, r2)
          else
            match parseItems fuel (c2 :: r2) with
            | some (items, r) => some (.arr items, r)
            | none => none
      else if c = '{' then
        match skipWs rest with
        | [] => none
        | c2 :: r2 =>
          if c2 = '}' then some (.obj .nil, r2)
          else
            match parseFields fuel (c2 :: r2) with
            | some (fields, r) => some (.obj fields, r)
            | none => none
      else if c = '-' then
        match parseNatNum rest with
        | some (m, r) => some (.num (-(m : Int)), r)
        | none => none
      else if isDigitChar c then
        match parseNatNum (c :: rest) with
        | some (m, r) => some (.num (m : Int), r)
        | none => none
      else none

/-- Parse one or more comma-separated array elements up to the closing
bracket. -/
def parseItems : Nat → List Char → Option (JsonArr × List Char)
  | 0, _ => none
  | fuel + 1, l =>
    match parseVal fuel l with
    | none => none
    | some (j, r1) =>
      match skipWs r1 with
      | ']' :: r2 => some (.cons j .nil, r2)
      | ',' :: r2 =>
        match parseItems fuel r2 with
        | none => none
        | some (t, r3) => some (.cons j t, r3)
      | _ => none

/-- Parse one or more comma-separated object members up to the closing
brace. -/
def parseFields : Nat → List Char → Option (JsonObj × List Char)
  | 0, _ => none
  | fuel + 1, l =>
    match skipWs l with
    | '"' :: r0 =>
      match parseStringAux r0 with
      | none => none
      | some (k, r1) =>
        match skipWs r1 with
        | ':' :: r2 =>
          match parseVal fuel r2 with
          | none => none
          | some (v, r3) =>
            match skipWs r3 with
            | '}' :: r4 => some (.cons (String.mk k) v .nil, r4)
            | ',' :: r4 =>
              match parseFields fuel r4 with
              | none => none
              | some (t, r5) => some (.cons (String.mk k) v t, r5)
            | _ => none
        | _ => none
    | _ => none
end

/-- The model of `JSON.parse` on a whole line: parse one value with ample
fuel and require only whitespace to remain. -/
def parseJson (l : List Char) : Option Json :=
  match parseVal (l.length + 1) l with
  | some (j, rest) => if skipWs rest = [] then some j else none
  | none => none

mutual
/-- JavaScript `String(v)` conversion of a JSON value. -/
def jsToString : Json → String
  | .null => "null"
  | .bool true => "true"
  | .bool false => "false"
  | .num n => String.mk (intSer n)
  | .str s => s
  | .arr items => arrJoin items
  | .obj _ => "[object Object]"

/-- JavaScript array-to-string join (`Array.prototype.toString`): elements
comma-separated, `null` elements rendered empty. -/
def arrJoin : JsonArr → String
  | .nil => ""
  | .cons .null .nil => ""
  | .cons h .nil => jsToString h
  | .cons .null t => "," ++ arrJoin t
  | .cons h t => jsToString h ++ "," ++ arrJoin t
end

/-- Object member lookup with JavaScript duplicate-key semantics (the last
occurrence of a key wins, as in a parsed JSON object). -/
def lookupField : JsonObj → String → Option Json
  | .nil, _ => none
  | .cons key v t, k =>
    match lookupField t k with
    | some r => some r
    | none => if key = k then some v else none

/-- `frame.k` property access on a non-null value: a field of an object,
`undefined` (here `none`) on the other values, whose property reads do
not throw.  Property access on `null` throws in JavaScript; that path is
modeled by `handleFrameJs`, which screens a parsed `null` before any
field of the frame is read, so `getField` is only ever applied to
non-null frames. -/
def getField : Json → String → Option Json
  | .obj fields, k => lookupField fields k
  | _, _ => none

/-- `String(frame.k ?? "")`: missing and `null` become the empty string,
anything else is string-converted. -/
def jsFieldString (j : Json) (k : String) : String :=
  match getField j k with
  | none => ""
  | some .null => ""
  | some v => jsToString v

/-- The frame discriminant as the client computes it:
`String(frame.type ?? "")`. -/
def frameType (j : Json) : String := jsFieldString j "type"

/-- JavaScript truthiness of a JSON value. -/
def jsTruthy : Json → Bool
  | .null => false
  | .bool b => b
  | .num n => n != 0
  | .str s => s != ""
  | .arr _ => true
  | .obj _ => true

/-- Truthiness of a possibly missing property (`undefined` is falsy). -/
def truthyOpt : Option Json → Bool
  | none => false
  | some j => jsTruthy j

/-- JavaScript `String.prototype.trim` on a character list. -/
def trimChars (l : List Char) : List Char :=
  ((l.dropWhile isWsChar).reverse.dropWhile isWsChar).reverse

/-- `trim()` on a string. -/
def trimStr (s : String) : String := String.mk (trimChars s.data)

/-- Hexadecimal digit test (the character class `[a-fA-F0-9]`). -/
def isHexChar (c : Char) : Bool :=
  isDigitChar c || ('a' ≤ c && c ≤ 'f') || ('A' ≤ c && c ≤ 'F')

/-- `normalizeFingerprint`: strip every non-hex character, lowercase the
rest. -/
def normalizeFingerprint (s : String) : String :=
  String.mk ((s.data.filter isHexChar).map Char.toLower)

/-- The part of a TLS peer certificate the client inspects. -/
structure PeerCert where
  fingerprint256 : Option String
deriving DecidableEq

/-- `extractFingerprint`: the certificate's SHA-256 fingerprint, absent or
empty treated as missing, otherwise normalized. -/
def extractFingerprint (c : PeerCert) : Option String :=
  match c.fingerprint256 with
  | none => none
  | some v => if v = "" then none else some (normalizeFingerprint v)

/-- Constructor options of the client (`BridgeClientOptions`), with the
mutable `token` slot included. -/
structure ClientOpts where
  host : String
  port : Nat
  tls : Bool
  tlsFingerprint : Option String
  nodeId : String
  token : Option String
  displayName : Option String
  platform : Option String
  version : Option String
  deviceFamily : Option String
  modelIdentifier : Option String
  caps : Option (List String)
  commands : Option (List String)
  permissions : Option (List (String × Bool))
deriving DecidableEq

/-- Observable actions of the client: socket writes, promise resolutions
and callback notifications. -/
inductive Effect where
  | wrote (frame : Json)
  | helloResolved
  | helloRejected (msg : String)
  | resolvedRpc (id : String) (frame : Json)
  | rejectedRpc (id : String) (msg : String)
  | onConnected (frame : Json)
  | onDisconnected (errMsg : Option String)
  | onPairToken (token : String)
  | onAuthReset
  | onEvent (frame : Json)
  | onInvoke (frame : Json)
  | socketDestroyed (msg : String)
deriving DecidableEq

/-- The client's mutable fields: options (with the token), socket handle
presence, line accumulation buffer, the pending-RPC table (call id mapped
to the requested method), the `connected` flag, and whether a `connect()`
promise is still waiting on the handshake. -/
structure ClientState where
  opts : ClientOpts
  socket : Bool
  buffer : List Char
  pendingRpc : List (String × String)
  connected : Bool
  helloWaiter : Bool
deriving DecidableEq

/-- First match in the pending-RPC table (keys are unique). -/
def pendingLookup : List (String × String) → String → Option String
  | [], _ => none
  | (k, v) :: t, id => if k = id then some v else pendingLookup t id

/-- `Map.delete`: remove the entry for a call id. -/
def pendingErase : List (String × String) → String → List (String × String)
  | [], _ => []
  | (k, v) :: t, id =>
    if k = id then pendingErase t id else (k, v) :: pendingErase t id

/-- `Map.set`: register a pending call under a fresh id. -/
def pendingInsert (m : List (String × String)) (id method : String) :
    List (String × String) :=
  pendingErase m id ++ [(id, method)]

/-- Build a `JsonObj` from a key/value list. -/
def objOf : List (String × Json) → JsonObj
  | [] => .nil
  | (k, v) :: t => .cons k v (objOf t)

/-- Build a `JsonArr` of strings. -/
def arrOfStrings : List String → JsonArr
  | [] => .nil
  | s :: t => .cons (.str s) (arrOfStrings t)

/-- Build a `JsonObj` of booleans (the `permissions` record). -/
def objOfPerms : List (String × Bool) → JsonObj
  | [] => .nil
  | (k, b) :: t => .cons k (.bool b) (objOfPerms t)

/-- A field present only when the option is set (`JSON.stringify` drops
`undefined`-valued members). -/
def optField (k : String) (v : Option Json) : List (String × Json) :=
  match v with
  | none => []
  | some j => [(k, j)]

/-- The identity fields shared by `hello` and `pair-request` frames. -/
def identityFields (o : ClientOpts) : List (String × Json) :=
  [("nodeId", .str o.nodeId)]

/-- The trailing metadata fields shared by `hello` and `pair-request`. -/
def metadataFields (o : ClientOpts) : List (String × Json) :=
  optField "displayName" (o.displayName.map .str)
    ++ optField "platform" (o.platform.map .str)
    ++ optField "version" (o.version.map .str)
    ++ optField "deviceFamily" (o.deviceFamily.map .str)
    ++ optField "modelIdentifier" (o.modelIdentifier.map .str)
    ++ optField "caps" (o.caps.map (fun l => .arr (arrOfStrings l)))
    ++ optField "commands" (o.commands.map (fun l => .arr (arrOfStrings l)))
    ++ optField "permissions" (o.permissions.map (fun l => .obj (objOfPerms l)))

/-- The `hello` frame `sendHello` builds from the options (token included
when one is stored). -/
def helloJson (o : ClientOpts) : Json :=
  .obj (objOf (("type", .str "hello") :: identityFields o
    ++ optField "token" (o.token.map .str) ++ metadataFields o))

/-- The `pair-request` frame `sendPairRequest` builds: same identity, no
token field at all. -/
def pairRequestJson (o : ClientOpts) : Json :=
  .obj (objOf (("type", .str "pair-request") :: identityFields o
    ++ metadataFields o))

/-- The `req` frame `request` builds. -/
def reqJson (id method : String) (paramsJSON : Option String) : Json :=
  .obj (objOf [("type", .str "req"), ("id", .str id), ("method", .str method),
    ("paramsJSON", match paramsJSON with | some s => .str s | none => .null)])

/-- `send`: write the JSON-serialized frame plus newline when a socket
exists, silently do nothing otherwise.  Note the only guard is socket
presence; `connected` is not consulted. -/
def send (st : ClientState) (j : Json) : ClientState × List Effect :=
  if st.socket then (st, [.wrote j]) else (st, [])

/-- The bytes `send` puts on the wire for a frame. -/
def encodeFrame (j : Json) : List Char := serJson j ++ ['\n']

/-- `handleDisconnect`: reject a still-pending handshake, and unless the
disconnect was already processed, reject every pending call, clear the
table, reset the state and fire `onDisconnected`. -/
def handleDisconnect (st : ClientState) (errMsg : Option String) :
    ClientState × List Effect :=
  let (st1, e1) :=
    if !st.connected && st.helloWaiter then
      ({st with helloWaiter := false},
        [Effect.helloRejected (errMsg.getD "bridge connection failed")])
    else (st, [])
  if !st1.connected && !st1.socket then (st1, e1)
  else
    ({st1 with connected := false, socket := false, pendingRpc := []},
      e1 ++ st1.pendingRpc.map
          (fun e => Effect.rejectedRpc e.1 (errMsg.getD "bridge connection closed"))
        ++ [Effect.onDisconnected errMsg])

/-- `handleFrame`: dispatch one parsed non-null frame on its `type`
discriminant (a parsed `null` never reaches this point: see
`handleFrameJs`). -/
def handleFrame (st : ClientState) (j : Json) : ClientState × List Effect :=
  let t := frameType j
  if t = "hello-ok" then
    ({st with connected := true, helloWaiter := false},
      (if st.helloWaiter then [Effect.helloResolved] else [])
        ++ [Effect.onConnected j])
  else if t = "pair-ok" then
    let token := trimStr (jsFieldString j "token")
    if token ≠ "" then
      ({st with opts := {st.opts with token := some token}},
        [Effect.onPairToken token])
    else (st, [])
  else if t = "error" then
    let code := jsFieldString j "code"
    if code = "NOT_PAIRED" || code = "UNAUTHORIZED" then
      let st1 := {st with opts := {st.opts with token := none}}
      let (st2, e2) := send st1 (pairRequestJson st1.opts)
      (st2, Effect.onAuthReset :: e2)
    else
      handleDisconnect st (some (match getField j "message" with
        | none => "bridge error"
        | some .null => "bridge error"
        | some m => jsToString m))
  else if t = "pong" then (st, [])
  else if t = "ping" then
    send st (.obj (objOf [("type", .str "pong"), ("id", .str (jsFieldString j "id"))]))
  else if t = "event" then (st, [.onEvent j])
  else if t = "res" then
    match getField j "id" with
    | some (.str s) =>
      match pendingLookup st.pendingRpc s with
      | some _ =>
        ({st with pendingRpc := pendingErase st.pendingRpc s}, [.resolvedRpc s j])
      | none => (st, [])
    | _ => (st, [])
  else if t = "invoke" then (st, [.onInvoke j])
  else (st, [])

/-- The complete lines of the accumulation buffer, and the remainder after
the last newline (the repeated `indexOf`/`slice` loop of `flush`). -/
def splitBuffer : List Char → List (List Char) × List Char
  | [] => ([], [])
  | c :: rest =>
    if c = '\n' then
      let (ls, r) := splitBuffer rest
      ([] :: ls, r)
    else
      match splitBuffer rest with
      | ([], r) => ([], c :: r)
      | (line :: ls, r) => ((c :: line) :: ls, r)

/-- The message of the uncaught `TypeError` thrown when `handleFrame`
evaluates `String(frame.type ?? "")` on a parsed `null`: reading a
property of `null` throws before `??` can apply. -/
def jsNullTypeError : String :=
  "TypeError: Cannot read properties of null (reading type)"

/-- The frame dispatch as it actually executes.  `handleFrame` begins by
reading `frame.type`; when the parsed line is `null` that property read
itself throws a `TypeError` before any case runs, and the exception
escapes `flush`, whose `try/catch` wraps only `JSON.parse`.  Every
non-null JSON value has readable properties (primitives yield
`undefined`), so for those dispatch proceeds as `handleFrame`.  The
second component is the uncaught exception, if one was thrown. -/
def handleFrameJs (st : ClientState) (j : Json) :
    (ClientState × List Effect) × Option String :=
  match j with
  | .null => ((st, []), some jsNullTypeError)
  | _ => (handleFrame st j, none)

/-- Re-serialize complete lines in front of a buffer remainder (the
content of `this.buffer` while later lines are still unconsumed). -/
def rejoin : List (List Char) → List Char → List Char
  | [], rest => rest
  | l :: ls, rest => l ++ '\n' :: rejoin ls rest

/-- One iteration of the `flush` loop body on an extracted line: trim,
skip blank, best-effort parse, dispatch; a thrown `TypeError` is
reported in the second component. -/
def processLine (st : ClientState) (line : List Char) :
    (ClientState × List Effect) × Option String :=
  let t := trimChars line
  if t = [] then ((st, []), none)
  else
    match parseJson t with
    | none => ((st, []), none)
    | some j => handleFrameJs st j

/-- Fold `processLine` over the extracted lines, accumulating effects;
the buffer is cut down before each line is handled, and an uncaught
exception aborts the loop, leaving the later lines buffered but
unprocessed. -/
def flushLines (st : ClientState) (rest : List Char) :
    List (List Char) → (ClientState × List Effect) × Option String
  | [] => ((st, []), none)
  | l :: ls =>
    let stb := {st with buffer := rejoin ls rest}
    match processLine stb l with
    | (r, some err) => (r, some err)
    | ((st1, e1), none) =>
      let ((st2, e2), err) := flushLines st1 rest ls
      ((st2, e1 ++ e2), err)

/-- `flush`: consume the complete lines of the buffer, keep the remainder
buffered; an uncaught exception from a line is propagated. -/
def flush (st : ClientState) : (ClientState × List Effect) × Option String :=
  let (lines, rest) := splitBuffer st.buffer
  flushLines st rest lines

/-- The pure decoding half of `flush`: the frames recovered from a byte
sequence, and the unconsumed remainder. -/
def decodeLines (l : List Char) : List Json × List Char :=
  let (lines, rest) := splitBuffer l
  (lines.filterMap (fun line =>
    let t := trimChars line
    if t = [] then none else parseJson t), rest)

/-- `sendHello`. -/
def sendHello (st : ClientState) : ClientState × List Effect :=
  send st (helloJson st.opts)

/-- `sendPairRequest`. -/
def sendPairRequest (st : ClientState) : ClientState × List Effect :=
  send st (pairRequestJson st.opts)

/-- The synchronous part of `request`: register the pending call under
the fresh id and send the `req` frame.  No handshake condition is
checked. -/
def requestStart (st : ClientState) (id method : String) (params : Option Json) :
    ClientState × List Effect :=
  let frame := reqJson id method (params.map (fun p => String.mk (serJson p)))
  send {st with pendingRpc := pendingInsert st.pendingRpc id method} frame

/-- The timer callback of `request`: drop the pending entry and reject
with the timeout error. -/
def timeoutFire (st : ClientState) (id method : String) : ClientState × List Effect :=
  ({st with pendingRpc := pendingErase st.pendingRpc id},
    [Effect.rejectedRpc id ("bridge request timeout (" ++ method ++ ")")])

/-- The tail of `request` once a `res` frame resolved the call: an
`ok:false` reply becomes a thrown error carrying the reply's message,
an `ok` reply yields the parsed payload (or `null`). -/
def requestOutcome (res : Json) : Except String (Option Json) :=
  if truthyOpt (getField res "ok") = false then
    .error (match getField res "error" with
      | none => "bridge request failed"
      | some .null => "bridge request failed"
      | some e =>
        match getField e "message" with
        | none => "bridge request failed"
        | some .null => "bridge request failed"
        | some m => jsToString m)
  else
    match getField res "payloadJSON" with
    | none => .ok none
    | some p =>
      if jsTruthy p then
        match parseJson (jsToString p).data with
        | some v => .ok (some v)
        | none => .error "bridge response payload parse error"
      else .ok none

/-- The socket options `connect()` passes to `tls.connect`: chain
verification is always disabled. -/
structure TlsConnectOptions where
  host : String
  port : Nat
  rejectUnauthorized : Bool
deriving DecidableEq

/-- The TLS connection options built in `connect()`. -/
def tlsSocketOptions (o : ClientOpts) : TlsConnectOptions :=
  { host := o.host, port := o.port, rejectUnauthorized := false }

/-- Whether `connect()` installs the `secureConnect` fingerprint check at
all (TLS enabled and a truthy pin configured; the socket is a TLS socket
exactly when the TLS option was set). -/
def pinListenerInstalled (o : ClientOpts) : Bool :=
  o.tls && (match o.tlsFingerprint with | none => false | some s => s != "")

/-- The abort condition of the pin check: no usable fingerprint on the
peer certificate, or a normalized mismatch with the pin (an extracted
fingerprint that normalizes to the empty string is falsy and also
aborts). -/
def pinAborts (pin : String) (cert : Option PeerCert) : Bool :=
  match (match cert with | some c => extractFingerprint c | none => none) with
  | none => true
  | some fp => fp == "" || fp != normalizeFingerprint pin

/-- The `secureConnect` handler: on pin-check failure, run the disconnect
path and destroy the socket with the fatal mismatch error. -/
def secureConnectCheck (st : ClientState) (cert : Option PeerCert) :
    ClientState × List Effect :=
  if pinAborts (st.opts.tlsFingerprint.getD "") cert then
    let msg := "bridge tls fingerprint mismatch"
    let (st1, e1) := handleDisconnect st (some msg)
    (st1, e1 ++ [Effect.socketDestroyed msg])
  else (st, [])

/-- A freshly constructed client. -/
def initialClient (o : ClientOpts) : ClientState :=
  { opts := o, socket := false, buffer := [], pendingRpc := []
    connected := false, helloWaiter := false }

/-- The synchronous part of `connect()`: arm the handshake promise and
take ownership of a new socket (no-op when already connected). -/
def connectStart (st : ClientState) : ClientState :=
  if st.connected then st else { st with helloWaiter := true, socket := true }

/-- The discriminants `handleFrame` dispatches on; every other `type`
falls to the silent default. -/
def knownFrameTypes : List String :=
  ["hello-ok", "pair-ok", "error", "pong", "ping", "event", "res",
    "invoke", "invoke-res"]

mutual
/-- Parser fuel needed for a JSON value (used to justify the fuel bound of
`parseJson` on serialized input). -/
def sizeJ : Json → Nat
  | .null => 1
  | .bool _ => 1
  | .num _ => 1
  | .str _ => 1
  | .arr items => 1 + sizeA items
  | .obj fields => 1 + sizeO fields

/-- Fuel needed for a list of array elements. -/
def sizeA : JsonArr → Nat
  | .nil => 0
  | .cons h t => 1 + sizeJ h + sizeA t

/-- Fuel needed for a list of object members. -/
def sizeO : JsonObj → Nat
  | .nil => 0
  | .cons _ v t => 1 + sizeJ v + sizeO t
end

/-- A suffix that cannot extend a just-parsed number: empty or starting
with a non-digit (every separator and closer of the JSON grammar
qualifies). -/
def delimited (rest : List Char) : Prop :=
  ∀ c, rest.head? = some c → isDigitChar c = false

/-- A concrete set of constructor options used by the closed witnesses. -/
def sampleOpts : ClientOpts :=
  { host := "gateway.local", port := 18789, tls := true, tlsFingerprint := none
    nodeId := "node-1", token := none, displayName := some "mac"
    platform := some "darwin", version := some "1.0", deviceFamily := none
    modelIdentifier := none, caps := some ["exec"], commands := some ["run"]
    permissions := some [("screen", true)] }

/-- A client state in mid-handshake over TLS with a configured pin. -/
def c2State : ClientState :=
  { opts := { sampleOpts with tlsFingerprint := some "AA:BB" }, socket := true
    buffer := [], pendingRpc := [("id-1", "status")], connected := false
    helloWaiter := true }

/-- The error frame used by the C5 witness. -/
def errNotPairedFrame : Json :=
  .obj (objOf [("type", .str "error"), ("code", .str "NOT_PAIRED"),
    ("message", .str "pairing required")])

/-- The pair-ok frame used by the C5 witness. -/
def pairOkFrame : Json :=
  .obj (objOf [("type", .str "pair-ok"), ("token", .str " tok-9 ")])

/-- The failing reply used by the C6 witness. -/
def resFailFrame : Json :=
  .obj (objOf [("type", .str "res"), ("id", .str "b"), ("ok", .bool false),
    ("error", .obj (objOf [("code", .str "UNAVAILABLE"),
      ("message", .str "boom")]))])

/-- The client state with two pending calls used by the C6/C7
witnesses. -/
def twoPendingState : ClientState :=
  { opts := sampleOpts, socket := true, buffer := []
    pendingRpc := [("a", "m1"), ("b", "m2")], connected := true
    helloWaiter := false }

/-- The late reply used by the C7 witness. -/
def lateResFrame : Json :=
  .obj (objOf [("type", .str "res"), ("id", .str "a"), ("ok", .bool true)])

/-- The blank-token frame used by the C10 witness. -/
def pairOkBlankFrame : Json :=
  .obj (objOf [("type", .str "pair-ok"), ("token", .str "   ")])

/-! ## Supporting lemmas -/

theorem pendingLookup_erase_self (m : List (String × String)) (id : String) :
    pendingLookup (pendingErase m id) id = none := by
  induction m with
  | nil => rfl
  | cons p t ih =>
    obtain ⟨k, v⟩ := p
    by_cases h : k = id
    · simpa [pendingErase, h] using ih
    · simpa [pendingErase, pendingLookup, h] using ih

theorem pendingLookup_erase_other (m : List (String × String)) (id s : String)
    (h : s ≠ id) : pendingLookup (pendingErase m id) s = pendingLookup m s := by
  induction m with
  | nil => rfl
  | cons p t ih =>
    obtain ⟨k, v⟩ := p
    by_cases hk : k = id
    · subst hk
      simp [pendingErase, pendingLookup, ih, Ne.symm h]
    · by_cases hs : k = s <;> simp [pendingErase, pendingLookup, hk, hs, ih, h]

theorem handleFrame_unknown_type (st : ClientState) (j : Json)
    (h : frameType j ∉ knownFrameTypes) : handleFrame st j = (st, []) := by
  simp only [knownFrameTypes, List.mem_cons, List.not_mem_nil, or_false, not_or] at h
  obtain ⟨h1, h2, h3, h4, h5, h6, h7, h8, h9⟩ := h
  simp [handleFrame, h1, h2, h3, h4, h5, h6, h7, h8]

theorem lookupField_objOf_append (l1 l2 : List (String × Json)) (k : String) :
    lookupField (objOf (l1 ++ l2)) k =
      match lookupField (objOf l2) k with
      | some r => some r
      | none => lookupField (objOf l1) k := by
  induction l1 with
  | nil =>
    simp only [List.nil_append]
    cases h : lookupField (objOf l2) k <;> simp [objOf, lookupField, h]
  | cons p t ih =>
    obtain ⟨k', v⟩ := p
    simp only [List.cons_append, objOf, lookupField]
    have ih' : lookupField (objOf (t.append l2)) k =
        match lookupField (objOf l2) k with
        | some r => some r
        | none => lookupField (objOf t) k := ih
    rw [ih']
    cases h2 : lookupField (objOf l2) k <;> cases h1 : lookupField (objOf t) k <;>
      simp [h1, h2]

theorem lookupField_objOf_optField (k k' : String) (v : Option Json) :
    lookupField (objOf (optField k' v)) k =
      if k' = k then v else none := by
  cases v <;> by_cases h : k' = k <;> simp [optField, objOf, lookupField, h]

theorem lookupField_metadataFields_token (o : ClientOpts) :
    lookupField (objOf (metadataFields o)) "token" = none := by
  simp [metadataFields, lookupField_objOf_append, lookupField_objOf_optField]

/-! ## C1 -/

/-- C1 counterexample: after `connect()` has opened the socket but before
any `hello-ok` frame has been observed (`connected` is still false and the
handshake promise is still pending), a `request()` call does write a `req`
frame to the socket — the claim that no `req` frame is ever written before
`hello-ok` is false of the code. -/
theorem c1_request_before_ready_writes_req :
    (connectStart (initialClient sampleOpts)).connected = false ∧
    (connectStart (initialClient sampleOpts)).helloWaiter = true ∧
    (requestStart (connectStart (initialClient sampleOpts)) "id-1" "status" none).2
      = [Effect.wrote (reqJson "id-1" "status" none)] ∧
    frameType (reqJson "id-1" "status" none) = "req" := by
  refine ⟨rfl, rfl, rfl, rfl⟩

/-- C1 (amended): `request()` writes its `req` frame exactly when a socket
exists; neither `request` nor `send` consults the handshake state, so the
frame can reach the wire before `hello-ok` — the ordering is provided only
by callers awaiting `connect()`. -/
theorem c1_request_write_guarded_only_by_socket (st : ClientState)
    (id method : String) (params : Option Json) :
    (requestStart st id method params).2
      = (if st.socket then
          [Effect.wrote (reqJson id method (params.map fun p => String.mk (serJson p)))]
        else []) := by
  by_cases h : st.socket <;> simp [requestStart, send, h]

/-! ## C2 -/

/-- C2: with a pin configured, the `secureConnect` check passes only when
the peer certificate carries a fingerprint whose normalization is nonempty
and equal to the normalized pin; in every other case (no certificate, no
fingerprint, or normalized mismatch) the connection is torn down as a
fatal error: the pending handshake is rejected, every pending call is
rejected, state is reset and the socket is destroyed. -/
theorem c2_tls_pin_normalized_comparison_and_abort (st : ClientState)
    (cert : Option PeerCert) (hconn : st.connected = false)
    (hwait : st.helloWaiter = true) (hsock : st.socket = true) :
    (pinAborts (st.opts.tlsFingerprint.getD "") cert = false ↔
      ∃ c v, cert = some c ∧ c.fingerprint256 = some v ∧
        normalizeFingerprint v ≠ "" ∧
        normalizeFingerprint v = normalizeFingerprint (st.opts.tlsFingerprint.getD "")) ∧
    (pinAborts (st.opts.tlsFingerprint.getD "") cert = true →
      secureConnectCheck st cert =
        ({ st with
             connected := false, socket := false, pendingRpc := []
             helloWaiter := false },
          Effect.helloRejected "bridge tls fingerprint mismatch"
            :: st.pendingRpc.map
              (fun e => Effect.rejectedRpc e.1 "bridge tls fingerprint mismatch")
            ++ [Effect.onDisconnected (some "bridge tls fingerprint mismatch"),
                Effect.socketDestroyed "bridge tls fingerprint mismatch"])) := by
  constructor
  · constructor
    · intro h
      match hc : cert with
      | none => simp [pinAborts, hc] at h
      | some c =>
        match hv : c.fingerprint256 with
        | none => simp [pinAborts, extractFingerprint, hv] at h
        | some v =>
          by_cases hemp : v = ""
          · simp [pinAborts, extractFingerprint, hv, hemp] at h
          · have h' : ¬normalizeFingerprint v = "" ∧
                normalizeFingerprint v
                  = normalizeFingerprint (st.opts.tlsFingerprint.getD "") := by
              simpa [pinAborts, extractFingerprint, hv, hemp, not_or] using h
            exact ⟨c, v, rfl, hv, h'.1, h'.2⟩
    · rintro ⟨c, v, rfl, hv, hne, heq⟩
      have hv' : v ≠ "" := by
        intro h0
        apply hne
        simp [h0, normalizeFingerprint]
      simp [pinAborts, extractFingerprint, hv, hv', ← heq, hne]
  · intro hab
    simp [secureConnectCheck, hab, handleDisconnect, hconn, hwait, hsock]

/-! ## C3 -/

/-- C3: a TLS connection is always opened with `rejectUnauthorized: false`
(chain verification disabled), and with no pinned fingerprint the
`secureConnect` verification handler is not installed either, so no peer
certificate verification happens at all. -/
theorem c3_tls_chain_verification_disabled (o : ClientOpts) (_htls : o.tls = true) :
    (tlsSocketOptions o).rejectUnauthorized = false ∧
      (o.tlsFingerprint = none → pinListenerInstalled o = false) := by
  refine ⟨rfl, fun h => ?_⟩
  simp [pinListenerInstalled, h]

/-- Closed witness for C3 at the sample options. -/
theorem c3_witness :
    sampleOpts.tls = true ∧
      ((tlsSocketOptions sampleOpts).rejectUnauthorized = false ∧
        (sampleOpts.tlsFingerprint = none → pinListenerInstalled sampleOpts = false)) :=
  ⟨rfl, c3_tls_chain_verification_disabled sampleOpts rfl⟩

/-! ## C4 -/

theorem handleFrameJs_ne_null (st : ClientState) (j : Json) (h : j ≠ .null) :
    handleFrameJs st j = (handleFrame st j, none) := by
  cases j with
  | null => exact absurd rfl h
  | bool b => rfl
  | num n => rfl
  | str s => rfl
  | arr items => rfl
  | obj fields => rfl

/-- The tolerant side of the boundary: a line that is blank after
trimming, fails to JSON-parse, or parses to a non-null value whose
`type` is not a handled discriminant, is discarded without state change,
effect, or exception.  (Only a parsed `null` escapes this: see C4.) -/
theorem processLine_tolerates_malformed (st : ClientState) (line : List Char)
    (h : trimChars line = [] ∨ parseJson (trimChars line) = none ∨
      ∃ j, parseJson (trimChars line) = some j ∧ j ≠ Json.null ∧
        frameType j ∉ knownFrameTypes) :
    processLine st line = ((st, []), none) := by
  rcases h with h | h | ⟨j, hj, hnn, hty⟩
  · simp [processLine, h]
  · simp [processLine, h]
  · by_cases ht : trimChars line = []
    · simp [processLine, ht]
    · simp [processLine, ht, hj, handleFrameJs_ne_null st j hnn,
        handleFrame_unknown_type st j hty]

/-- C4 (code bug): the line ` null ` is not blank and JSON-parses to
`null`, a value without a usable `type` discriminant — per the claim it
should be silently discarded with processing continuing on the next
line.  Instead the dispatch reads `.type` of `null` and throws an
uncaught `TypeError`, which aborts the flush loop: the following
buffered `res` line, which on its own would resolve pending call `a`,
is left in the buffer and never processed. -/
theorem c4_null_line_crashes_flush :
    trimChars " null ".data ≠ [] ∧
    parseJson (trimChars " null ".data) = some Json.null ∧
    handleFrameJs twoPendingState Json.null
      = ((twoPendingState, []), some jsNullTypeError) ∧
    flushLines twoPendingState [] [" null ".data, serJson lateResFrame]
      = (({twoPendingState with buffer := rejoin [serJson lateResFrame] []}, []),
        some jsNullTypeError) ∧
    (processLine twoPendingState (serJson lateResFrame)).1.2
      = [Effect.resolvedRpc "a" lateResFrame] := by
  refine ⟨by decide, by decide, rfl, ?_, by decide⟩
  decide

/-! ## C2 witness -/

/-- Closed witness for C2: a peer certificate whose fingerprint does not
match the pin aborts the connection. -/
theorem c2_witness :
    (c2State.connected = false ∧ c2State.helloWaiter = true ∧
      c2State.socket = true) ∧
    ((pinAborts (c2State.opts.tlsFingerprint.getD "")
        (some { fingerprint256 := some "CC:DD" }) = false ↔
      ∃ c v, (some { fingerprint256 := some "CC:DD" } : Option PeerCert) = some c ∧
        c.fingerprint256 = some v ∧ normalizeFingerprint v ≠ "" ∧
        normalizeFingerprint v
          = normalizeFingerprint (c2State.opts.tlsFingerprint.getD "")) ∧
    (pinAborts (c2State.opts.tlsFingerprint.getD "")
        (some { fingerprint256 := some "CC:DD" }) = true →
      secureConnectCheck c2State (some { fingerprint256 := some "CC:DD" }) =
        ({ c2State with
             connected := false, socket := false, pendingRpc := []
             helloWaiter := false },
          Effect.helloRejected "bridge tls fingerprint mismatch"
            :: c2State.pendingRpc.map
              (fun e => Effect.rejectedRpc e.1 "bridge tls fingerprint mismatch")
            ++ [Effect.onDisconnected (some "bridge tls fingerprint mismatch"),
                Effect.socketDestroyed "bridge tls fingerprint mismatch"]))) :=
  ⟨⟨rfl, rfl, rfl⟩,
    c2_tls_pin_normalized_comparison_and_abort c2State
      (some { fingerprint256 := some "CC:DD" }) rfl rfl rfl⟩

/-! ## C5 -/

theorem lookupField_metadataFields_nodeId (o : ClientOpts) :
    lookupField (objOf (metadataFields o)) "nodeId" = none := by
  simp [metadataFields, lookupField_objOf_append, lookupField_objOf_optField]

/-- C5: an `error` frame with code `NOT_PAIRED` or `UNAUTHORIZED` clears
the stored token, fires `onAuthReset` and writes a `pair-request` frame
that has no token field and carries the same node identity; a later
`pair-ok` whose token trims to a nonempty string stores that token, fires
`onPairToken`, and the next `hello` frame built from the options carries
the new token. -/
theorem c5_auth_reset_and_repair_flow (st : ClientState) (j jp : Json)
    (t : String) (hsock : st.socket = true)
    (hty : frameType j = "error")
    (hcode : jsFieldString j "code" = "NOT_PAIRED" ∨
      jsFieldString j "code" = "UNAUTHORIZED")
    (htyp : frameType jp = "pair-ok")
    (htok : trimStr (jsFieldString jp "token") = t)
    (hne : t ≠ "") :
    handleFrame st j
      = ({st with opts := {st.opts with token := none}},
         [Effect.onAuthReset,
          Effect.wrote (pairRequestJson {st.opts with token := none})]) ∧
    getField (pairRequestJson {st.opts with token := none}) "token" = none ∧
    getField (pairRequestJson {st.opts with token := none}) "nodeId"
      = some (.str st.opts.nodeId) ∧
    handleFrame {st with opts := {st.opts with token := none}} jp
      = ({st with opts := {st.opts with token := some t}},
         [Effect.onPairToken t]) ∧
    getField (helloJson {st.opts with token := some t}) "token"
      = some (.str t) := by
  refine ⟨?_, ?_, ?_, ?_, ?_⟩
  · rcases hcode with hc | hc <;> simp [handleFrame, hty, hc, send, hsock]
  · simp [pairRequestJson, getField, objOf, lookupField, identityFields,
      lookupField_objOf_append, lookupField_metadataFields_token]
  · simp [pairRequestJson, getField, objOf, lookupField, identityFields,
      lookupField_objOf_append, lookupField_metadataFields_nodeId]
  · simp [handleFrame, htyp, htok, hne]
  · simp [helloJson, getField, objOf, lookupField, identityFields,
      lookupField_objOf_append, lookupField_metadataFields_token,
      lookupField_objOf_optField]

/-- Closed witness for C5 on concrete frames. -/
theorem c5_witness :
    ((connectStart (initialClient { sampleOpts with token := some "old" })).socket
        = true ∧
      frameType errNotPairedFrame = "error" ∧
      jsFieldString errNotPairedFrame "code" = "NOT_PAIRED" ∧
      frameType pairOkFrame = "pair-ok" ∧
      trimStr (jsFieldString pairOkFrame "token") = "tok-9" ∧
      ("tok-9" : String) ≠ "") ∧
    (handleFrame (connectStart (initialClient { sampleOpts with token := some "old" }))
        errNotPairedFrame
      = ({(connectStart (initialClient { sampleOpts with token := some "old" })) with
            opts := {(connectStart (initialClient { sampleOpts with token := some "old" })).opts with
              token := none}},
         [Effect.onAuthReset,
          Effect.wrote (pairRequestJson
            {(connectStart (initialClient { sampleOpts with token := some "old" })).opts with
              token := none})]) ∧
      getField (pairRequestJson
        {(connectStart (initialClient { sampleOpts with token := some "old" })).opts with
          token := none}) "token" = none ∧
      getField (pairRequestJson
        {(connectStart (initialClient { sampleOpts with token := some "old" })).opts with
          token := none}) "nodeId"
        = some (.str (connectStart (initialClient { sampleOpts with token := some "old" })).opts.nodeId) ∧
      handleFrame {(connectStart (initialClient { sampleOpts with token := some "old" })) with
          opts := {(connectStart (initialClient { sampleOpts with token := some "old" })).opts with
            token := none}} pairOkFrame
        = ({(connectStart (initialClient { sampleOpts with token := some "old" })) with
              opts := {(connectStart (initialClient { sampleOpts with token := some "old" })).opts with
                token := some "tok-9"}},
           [Effect.onPairToken "tok-9"]) ∧
      getField (helloJson
        {(connectStart (initialClient { sampleOpts with token := some "old" })).opts with
          token := some "tok-9"}) "token" = some (.str "tok-9")) :=
  ⟨⟨rfl, rfl, rfl, rfl, rfl, by decide⟩,
    c5_auth_reset_and_repair_flow _ errNotPairedFrame pairOkFrame "tok-9"
      rfl rfl (Or.inl rfl) rfl rfl (by decide)⟩

/-! ## C6 -/

/-- C6: a `res` frame resolves exactly the pending call with the matching
id (which is removed, leaving every other id untouched, so a second `res`
for the same id is a no-op), a `res` whose id has no pending entry is
silently dropped, and an `ok:false` reply makes the request fail with the
carried error message. -/
theorem c6_res_resolves_matching_call (st : ClientState) (j : Json) (s : String)
    (hty : frameType j = "res") (hid : getField j "id" = some (.str s)) :
    (∀ m, pendingLookup st.pendingRpc s = some m →
      handleFrame st j
        = ({st with pendingRpc := pendingErase st.pendingRpc s},
           [Effect.resolvedRpc s j])) ∧
    (pendingLookup st.pendingRpc s = none → handleFrame st j = (st, [])) ∧
    pendingLookup (pendingErase st.pendingRpc s) s = none ∧
    (∀ s', s' ≠ s →
      pendingLookup (pendingErase st.pendingRpc s) s'
        = pendingLookup st.pendingRpc s') ∧
    (truthyOpt (getField j "ok") = false →
      ∀ e m, getField j "error" = some e →
        getField e "message" = some (.str m) →
        requestOutcome j = .error m) := by
  refine ⟨?_, ?_, pendingLookup_erase_self _ _,
    fun s' h => pendingLookup_erase_other _ _ _ h, ?_⟩
  · intro m hm
    simp [handleFrame, hty, hid, hm]
  · intro hm
    simp [handleFrame, hty, hid, hm]
  · intro hok e m he hm
    match e with
    | .null => simp [getField] at hm
    | .bool b => simp [getField] at hm
    | .num n => simp [getField] at hm
    | .str s2 => simp [getField] at hm
    | .arr a => simp [getField] at hm
    | .obj fs => simp [requestOutcome, hok, he, hm, jsToString]

/-- Closed witness for C6: the reply with id `b` resolves call `b` only,
removes it, leaves call `a` pending, and carries its error message into
the request failure. -/
theorem c6_witness :
    (frameType resFailFrame = "res" ∧
      getField resFailFrame "id" = some (.str "b")) ∧
    ((∀ m, pendingLookup twoPendingState.pendingRpc "b" = some m →
      handleFrame twoPendingState resFailFrame
        = ({twoPendingState with
              pendingRpc := pendingErase twoPendingState.pendingRpc "b"},
           [Effect.resolvedRpc "b" resFailFrame])) ∧
    (pendingLookup twoPendingState.pendingRpc "b" = none →
      handleFrame twoPendingState resFailFrame = (twoPendingState, [])) ∧
    pendingLookup (pendingErase twoPendingState.pendingRpc "b") "b" = none ∧
    (∀ s', s' ≠ "b" →
      pendingLookup (pendingErase twoPendingState.pendingRpc "b") s'
        = pendingLookup twoPendingState.pendingRpc s') ∧
    (truthyOpt (getField resFailFrame "ok") = false →
      ∀ e m, getField resFailFrame "error" = some e →
        getField e "message" = some (.str m) →
        requestOutcome resFailFrame = .error m)) :=
  ⟨⟨rfl, rfl⟩,
    c6_res_resolves_matching_call twoPendingState resFailFrame "b" rfl rfl⟩

/-! ## C7 -/

/-- C7: when the timeout timer of a request fires, the pending entry is
removed and the call is rejected with the timeout error naming the
method; afterwards the id is no longer pending, so a late `res` frame for
it is a no-op. -/
theorem c7_timeout_rejects_and_late_res_noop (st : ClientState)
    (id method : String) (j : Json)
    (hty : frameType j = "res") (hid : getField j "id" = some (.str id)) :
    timeoutFire st id method
      = ({st with pendingRpc := pendingErase st.pendingRpc id},
         [Effect.rejectedRpc id ("bridge request timeout (" ++ method ++ ")")]) ∧
    pendingLookup (pendingErase st.pendingRpc id) id = none ∧
    handleFrame (timeoutFire st id method).1 j
      = ((timeoutFire st id method).1, []) := by
  refine ⟨rfl, pendingLookup_erase_self _ _, ?_⟩
  simp [timeoutFire, handleFrame, hty, hid, pendingLookup_erase_self]

/-- Closed witness for C7 on the two-pending state. -/
theorem c7_witness :
    (frameType lateResFrame = "res" ∧
      getField lateResFrame "id" = some (.str "a")) ∧
    (timeoutFire twoPendingState "a" "m1"
      = ({twoPendingState with
            pendingRpc := pendingErase twoPendingState.pendingRpc "a"},
         [Effect.rejectedRpc "a" ("bridge request timeout (" ++ "m1" ++ ")")]) ∧
    pendingLookup (pendingErase twoPendingState.pendingRpc "a") "a" = none ∧
    handleFrame (timeoutFire twoPendingState "a" "m1").1 lateResFrame
      = ((timeoutFire twoPendingState "a" "m1").1, [])) :=
  ⟨⟨rfl, rfl⟩,
    c7_timeout_rejects_and_late_res_noop twoPendingState "a" "m1"
      lateResFrame rfl rfl⟩

/-! ## C8 -/

/-- C8: a disconnect of an active connection (socket still owned or
session connected) resets the state to disconnected (`connected = false`,
no socket), clears the pending table, rejects every pending call with the
disconnection error (the socket error if one was carried, else the
generic connection-closed error) and fires `onDisconnected`; no pending
call is silently dropped. -/
theorem c8_disconnect_rejects_every_pending (st : ClientState)
    (errMsg : Option String) (hactive : st.socket = true ∨ st.connected = true) :
    (handleDisconnect st errMsg).1.connected = false ∧
    (handleDisconnect st errMsg).1.socket = false ∧
    (handleDisconnect st errMsg).1.pendingRpc = [] ∧
    (∀ p ∈ st.pendingRpc,
      Effect.rejectedRpc p.1 (errMsg.getD "bridge connection closed")
        ∈ (handleDisconnect st errMsg).2) ∧
    Effect.onDisconnected errMsg ∈ (handleDisconnect st errMsg).2 := by
  have h2 : (!st.connected && !st.socket) = false := by
    rcases hactive with h | h <;> simp [h]
  by_cases h1 : (!st.connected && st.helloWaiter) = true <;>
    refine ⟨?_, ?_, ?_, fun p hp => ?_, ?_⟩ <;>
      simp [handleDisconnect, h1, h2, List.mem_append, List.mem_map] <;>
        exact ⟨p.2, hp⟩

/-- Closed witness for C8: disconnecting the two-pending state rejects
both calls and fires `onDisconnected`. -/
theorem c8_witness :
    (twoPendingState.socket = true ∨ twoPendingState.connected = true) ∧
    ((handleDisconnect twoPendingState none).1.connected = false ∧
    (handleDisconnect twoPendingState none).1.socket = false ∧
    (handleDisconnect twoPendingState none).1.pendingRpc = [] ∧
    (∀ p ∈ twoPendingState.pendingRpc,
      Effect.rejectedRpc p.1 ((none : Option String).getD "bridge connection closed")
        ∈ (handleDisconnect twoPendingState none).2) ∧
    Effect.onDisconnected none ∈ (handleDisconnect twoPendingState none).2) :=
  ⟨Or.inl rfl,
    c8_disconnect_rejects_every_pending twoPendingState none (Or.inl rfl)⟩

/-! ## C10 -/

/-- C10: a `pair-ok` frame whose token is missing (hence extracted as the
empty string), or whose token trims to the empty string, changes nothing
and fires no `onPairToken`; the stored token is replaced exactly when the
trimmed token is nonempty. -/
theorem c10_pair_ok_blank_token_ignored (st : ClientState) (j : Json)
    (hty : frameType j = "pair-ok") :
    (getField j "token" = none → trimStr (jsFieldString j "token") = "") ∧
    (trimStr (jsFieldString j "token") = "" → handleFrame st j = (st, [])) ∧
    (∀ t, trimStr (jsFieldString j "token") = t → t ≠ "" →
      handleFrame st j
        = ({st with opts := {st.opts with token := some t}},
           [Effect.onPairToken t])) := by
  refine ⟨?_, ?_, ?_⟩
  · intro h
    simp [jsFieldString, h, trimStr, trimChars]
  · intro h
    simp [handleFrame, hty, h]
  · intro t ht hne
    simp [handleFrame, hty, ht, hne]

/-- Closed witness for C10: a whitespace-only token is ignored. -/
theorem c10_witness :
    frameType pairOkBlankFrame = "pair-ok" ∧
    ((getField pairOkBlankFrame "token" = none →
      trimStr (jsFieldString pairOkBlankFrame "token") = "") ∧
    (trimStr (jsFieldString pairOkBlankFrame "token") = "" →
      handleFrame twoPendingState pairOkBlankFrame = (twoPendingState, [])) ∧
    (∀ t, trimStr (jsFieldString pairOkBlankFrame "token") = t → t ≠ "" →
      handleFrame twoPendingState pairOkBlankFrame
        = ({twoPendingState with
              opts := {twoPendingState.opts with token := some t}},
           [Effect.onPairToken t]))) :=
  ⟨rfl, c10_pair_ok_blank_token_ignored twoPendingState pairOkBlankFrame rfl⟩


/-! ## C9: codec round trip -/

theorem skipWs_cons (c : Char) (l : List Char) (h : isWsChar c = false) :
    skipWs (c :: l) = c :: l := by
  simp [skipWs, List.dropWhile_cons, h]

theorem string_mk_data (s : String) : String.mk s.data = s := rfl

theorem parseStringAux_quote (rest : List Char) :
    parseStringAux ('"' :: rest) = some ([], rest) := by
  rw [parseStringAux.eq_def]
  simp

theorem parseStringAux_escape (e u : Char) (l : List Char)
    (he : unescChar e = some u) :
    parseStringAux ('\\' :: e :: l)
      = match parseStringAux l with
        | none => none
        | some (s, r) => some (u :: s, r) := by
  rw [parseStringAux.eq_def]
  simp [he]

theorem parseStringAux_plain (c : Char) (l : List Char) (h1 : c ≠ '"')
    (h2 : c ≠ '\\') :
    parseStringAux (c :: l)
      = match parseStringAux l with
        | none => none
        | some (s, r) => some (c :: s, r) := by
  rw [parseStringAux.eq_def]
  simp [h1, h2]

theorem parseStringAux_escaped (l rest : List Char) :
    parseStringAux ((l.map escChar).flatten ++ '"' :: rest) = some (l, rest) := by
  induction l with
  | nil => simpa using parseStringAux_quote rest
  | cons c t ih =>
    have hstep : ((c :: t).map escChar).flatten ++ '"' :: rest
        = escChar c ++ ((t.map escChar).flatten ++ '"' :: rest) := by simp
    rw [hstep]
    by_cases h1 : c = '"'
    · subst h1
      rw [show escChar '"' ++ ((t.map escChar).flatten ++ '"' :: rest)
          = '\\' :: '"' :: ((t.map escChar).flatten ++ '"' :: rest) from rfl,
        parseStringAux_escape '"' '"' _ rfl, ih]
    · by_cases h2 : c = '\\'
      · subst h2
        rw [show escChar '\\' ++ ((t.map escChar).flatten ++ '"' :: rest)
            = '\\' :: '\\' :: ((t.map escChar).flatten ++ '"' :: rest) from rfl,
          parseStringAux_escape '\\' '\\' _ rfl, ih]
      · by_cases h3 : c = '\n'
        · subst h3
          rw [show escChar '\n' ++ ((t.map escChar).flatten ++ '"' :: rest)
              = '\\' :: 'n' :: ((t.map escChar).flatten ++ '"' :: rest) from rfl,
            parseStringAux_escape 'n' '\n' _ rfl, ih]
        · by_cases h4 : c = '\t'
          · subst h4
            rw [show escChar '\t' ++ ((t.map escChar).flatten ++ '"' :: rest)
                = '\\' :: 't' :: ((t.map escChar).flatten ++ '"' :: rest) from rfl,
              parseStringAux_escape 't' '\t' _ rfl, ih]
          · by_cases h5 : c = '\r'
            · subst h5
              rw [show escChar '\r' ++ ((t.map escChar).flatten ++ '"' :: rest)
                  = '\\' :: 'r' :: ((t.map escChar).flatten ++ '"' :: rest) from rfl,
                parseStringAux_escape 'r' '\r' _ rfl, ih]
            · have hesc : escChar c = [c] := by
                simp [escChar, h1, h2, h3, h4, h5]
              rw [hesc, show ([c] : List Char)
                    ++ ((t.map escChar).flatten ++ '"' :: rest)
                  = c :: ((t.map escChar).flatten ++ '"' :: rest) from rfl,
                parseStringAux_plain c _ h1 h2, ih]

theorem isDigitChar_digitChar (k : Nat) : isDigitChar (digitChar k) = true := by
  rcases k with _|_|_|_|_|_|_|_|_|n <;> rfl

theorem charVal_digitChar (k : Nat) (h : k < 10) : charVal (digitChar k) = k := by
  rcases k with _|_|_|_|_|_|_|_|_|_|n
  all_goals first
  | rfl
  | omega

theorem natSer_ne_nil (n : Nat) : natSer n ≠ [] := by
  rw [natSer]
  split <;> simp

theorem natSer_digits (n : Nat) : ∀ c ∈ natSer n, isDigitChar c = true := by
  induction n using Nat.strong_induction_on with
  | _ n ih =>
    by_cases h : n < 10
    · rw [natSer]
      simp [h, isDigitChar_digitChar]
    · rw [natSer]
      simp only [h, dite_false]
      intro c hc
      rw [List.mem_append] at hc
      rcases hc with hc | hc
      · exact ih (n / 10) (Nat.div_lt_self (by omega) (by omega)) c hc
      · simp only [List.mem_singleton] at hc
        subst hc
        exact isDigitChar_digitChar _

theorem foldl_digits (n : Nat) : ∀ a : Nat,
    List.foldl (fun a c => a * 10 + charVal c) a (natSer n)
      = a * 10 ^ (natSer n).length + n := by
  induction n using Nat.strong_induction_on with
  | _ n ih =>
    intro a
    by_cases h : n < 10
    · rw [natSer]
      simp [h, charVal_digitChar n h]
    · rw [natSer]
      simp only [h, dite_false]
      rw [List.foldl_append, ih (n / 10) (Nat.div_lt_self (by omega) (by omega)) a]
      have hmod := Nat.div_add_mod n 10
      simp only [List.foldl_cons, List.foldl_nil, List.length_append,
        List.length_singleton, pow_succ, charVal_digitChar (n % 10) (by omega)]
      ring_nf
      omega

theorem digitsToNat_natSer (n : Nat) : digitsToNat (natSer n) = n := by
  simpa [digitsToNat] using foldl_digits n 0

theorem takeWhile_digits (l rest : List Char)
    (hl : ∀ c ∈ l, isDigitChar c = true) (hr : delimited rest) :
    (l ++ rest).takeWhile isDigitChar = l ∧
      (l ++ rest).dropWhile isDigitChar = rest := by
  induction l with
  | nil =>
    simp only [List.nil_append]
    cases rest with
    | nil => simp
    | cons r rs =>
      have hhd := hr r rfl
      simp [List.takeWhile_cons, List.dropWhile_cons, hhd]
  | cons c t ih =>
    have hc := hl c (by simp)
    obtain ⟨h1, h2⟩ := ih (fun c h => hl c (by simp [h]))
    simp [List.takeWhile_cons, List.dropWhile_cons, hc, h1, h2]

theorem parseNatNum_natSer (m : Nat) (rest : List Char) (hr : delimited rest) :
    parseNatNum (natSer m ++ rest) = some (m, rest) := by
  obtain ⟨h1, h2⟩ := takeWhile_digits (natSer m) rest (natSer_digits m) hr
  have hne := natSer_ne_nil m
  simp [parseNatNum, h1, h2, List.isEmpty_iff, hne, digitsToNat_natSer]

theorem digit_not_ws (c : Char) (h : isDigitChar c = true) : isWsChar c = false := by
  have h1 : c ≠ ' ' := by rintro rfl; exact absurd h (by decide)
  have h2 : c ≠ '\t' := by rintro rfl; exact absurd h (by decide)
  have h3 : c ≠ '\n' := by rintro rfl; exact absurd h (by decide)
  have h4 : c ≠ '\r' := by rintro rfl; exact absurd h (by decide)
  simp [isWsChar, h1, h2, h3, h4]

theorem digit_ne_starters (c : Char) (h : isDigitChar c = true) :
    c ≠ 'n' ∧ c ≠ 't' ∧ c ≠ 'f' ∧ c ≠ '"' ∧ c ≠ '[' ∧ c ≠ '{' ∧ c ≠ '-' ∧
      c ≠ ']' ∧ c ≠ '}' := by
  refine ⟨?_, ?_, ?_, ?_, ?_, ?_, ?_, ?_, ?_⟩ <;>
    (rintro rfl; exact absurd h (by decide))

theorem parseVal_digit_head (fuel : Nat) (c : Char) (l : List Char)
    (h : isDigitChar c = true) :
    parseVal (fuel + 1) (c :: l)
      = match parseNatNum (c :: l) with
        | some (m, r) => some (.num (m : Int), r)
        | none => none := by
  obtain ⟨h1, h2, h3, h4, h5, h6, h7, _, _⟩ := digit_ne_starters c h
  simp [parseVal, skipWs_cons c l (digit_not_ws c h), h1, h2, h3, h4, h5, h6, h7, h]

theorem sizeJ_pos (j : Json) : 1 ≤ sizeJ j := by
  cases j <;> simp [sizeJ]

theorem serJson_head (j : Json) :
    ∃ c l2, serJson j = c :: l2
      ∧ (isWsChar c = false ∧ c ≠ ']' ∧ c ≠ '}') := by
  cases j with
  | num n =>
    by_cases hn : n < 0
    · refine ⟨'-', natSer (-n).toNat, by simp [serJson, intSer, hn], by decide⟩
    · obtain ⟨d, ds, hds⟩ := List.exists_cons_of_ne_nil (natSer_ne_nil n.toNat)
      have hd : isDigitChar d = true := natSer_digits _ d (by rw [hds]; simp)
      obtain ⟨_, _, _, _, _, _, _, h8, h9⟩ := digit_ne_starters d hd
      refine ⟨d, ds, by simp [serJson, intSer, hn, hds], ?_⟩
      exact ⟨digit_not_ws d hd, h8, h9⟩
  | bool b => cases b <;> exact ⟨_, _, rfl, by decide⟩
  | _ => exact ⟨_, _, rfl, by decide⟩

theorem delimited_cons (c : Char) (X : List Char) (h : isDigitChar c = false) :
    delimited (c :: X) := by
  intro c2 hc2
  simp only [List.head?_cons, Option.some.injEq] at hc2
  subst hc2
  exact h

theorem delimited_nil : delimited [] := by
  intro c hc
  simp at hc

theorem parseVal_arr_head (fuel : Nat) (c : Char) (X : List Char)
    (hw : isWsChar c = false) (hne : c ≠ ']') :
    parseVal (fuel + 1) ('[' :: c :: X)
      = match parseItems fuel (c :: X) with
        | some (items, r) => some (.arr items, r)
        | none => none := by
  have hsk : skipWs (c :: X) = c :: X := skipWs_cons c X hw
  simp [parseVal, skipWs_cons, isWsChar, hsk, hne]

theorem parseVal_obj_head (fuel : Nat) (c : Char) (X : List Char)
    (hw : isWsChar c = false) (hne : c ≠ '}') :
    parseVal (fuel + 1) ('{' :: c :: X)
      = match parseFields fuel (c :: X) with
        | some (fields, r) => some (.obj fields, r)
        | none => none := by
  have hsk : skipWs (c :: X) = c :: X := skipWs_cons c X hw
  simp [parseVal, skipWs_cons, isWsChar, hsk, hne]

mutual
/-- The serializer/parser round trip: parsing a serialized value consumes
exactly it and leaves the suffix, for any fuel at least the value's
size and any suffix that cannot extend a number. -/
theorem parseVal_ser : ∀ (fuel : Nat) (j : Json) (rest : List Char),
    sizeJ j ≤ fuel → delimited rest →
    parseVal fuel (serJson j ++ rest) = some (j, rest)
  | 0, j, _rest, hf, _hd => by
    exact absurd hf (by have := sizeJ_pos j; omega)
  | fuel + 1, j, rest, hf, hd => by
    cases j with
    | null =>
      show parseVal (fuel + 1) ('n' :: 'u' :: 'l' :: 'l' :: rest) = _
      simp [parseVal, skipWs_cons, isWsChar]
    | bool b =>
      cases b with
      | true =>
        show parseVal (fuel + 1) ('t' :: 'r' :: 'u' :: 'e' :: rest) = _
        simp [parseVal, skipWs_cons, isWsChar]
      | false =>
        show parseVal (fuel + 1) ('f' :: 'a' :: 'l' :: 's' :: 'e' :: rest) = _
        simp [parseVal, skipWs_cons, isWsChar]
    | num n =>
      by_cases hn : n < 0
      · rw [show serJson (Json.num n) ++ rest
            = '-' :: (natSer (-n).toNat ++ rest) from by simp [serJson, intSer, hn]]
        have ht : (((-n).toNat : Nat) : Int) = -n := by omega
        simp [parseVal, skipWs_cons, isWsChar, parseNatNum_natSer _ _ hd, ht]
      · obtain ⟨d, ds, hds⟩ := List.exists_cons_of_ne_nil (natSer_ne_nil n.toNat)
        have hdd : isDigitChar d = true := natSer_digits _ d (by rw [hds]; simp)
        rw [show serJson (Json.num n) ++ rest = natSer n.toNat ++ rest from by
          simp [serJson, intSer, hn]]
        rw [hds, show (d :: ds) ++ rest = d :: (ds ++ rest) from rfl]
        rw [parseVal_digit_head fuel d _ hdd]
        rw [show d :: (ds ++ rest) = (d :: ds) ++ rest from rfl, ← hds]
        rw [parseNatNum_natSer n.toNat rest hd]
        have ht : ((n.toNat : Nat) : Int) = n := by omega
        simp [ht]
    | str s =>
      rw [show serJson (Json.str s) ++ rest
          = '"' :: ((s.data.map escChar).flatten ++ '"' :: rest) from by
        simp [serJson, serString]]
      simp [parseVal, skipWs_cons, isWsChar, parseStringAux_escaped, string_mk_data]
    | arr items =>
      cases items with
      | nil =>
        show parseVal (fuel + 1) ('[' :: ']' :: rest) = _
        simp [parseVal, skipWs_cons, isWsChar]
      | cons h t =>
        rw [show serJson (Json.arr (JsonArr.cons h t)) ++ rest
            = '[' :: (serItems (JsonArr.cons h t) ++ (']' :: rest)) from by
          simp [serJson]]
        obtain ⟨c, l2, hc, hw, hne, _⟩ := serJson_head h
        obtain ⟨Z, hZ⟩ : ∃ Z, serItems (JsonArr.cons h t) = serJson h ++ Z := by
          cases t with
          | nil => exact ⟨[], by simp [serItems]⟩
          | cons h2 t2 => exact ⟨',' :: serItems (JsonArr.cons h2 t2), rfl⟩
        rw [hZ, List.append_assoc, hc, List.cons_append]
        rw [parseVal_arr_head fuel c _ hw hne]
        rw [show c :: (l2 ++ (Z ++ ']' :: rest)) = (c :: l2) ++ (Z ++ ']' :: rest)
          from rfl, ← hc, ← List.append_assoc, ← hZ]
        rw [parseItems_ser fuel (JsonArr.cons h t) rest (by simp)
          (by simp [sizeJ] at hf; omega)]
    | obj fields =>
      cases fields with
      | nil =>
        show parseVal (fuel + 1) ('{' :: '}' :: rest) = _
        simp [parseVal, skipWs_cons, isWsChar]
      | cons k v t =>
        rw [show serJson (Json.obj (JsonObj.cons k v t)) ++ rest
            = '{' :: (serFields (JsonObj.cons k v t) ++ ('}' :: rest)) from by
          simp [serJson]]
        obtain ⟨B, hB⟩ : ∃ B, serFields (JsonObj.cons k v t) = '"' :: B := by
          cases t with
          | nil => exact ⟨_, rfl⟩
          | cons k2 v2 t2 => exact ⟨_, rfl⟩
        rw [hB, List.cons_append]
        rw [parseVal_obj_head fuel '"' (B ++ ('}' :: rest)) (by decide) (by decide)]
        rw [show '"' :: (B ++ ('}' :: rest)) = ('"' :: B) ++ ('}' :: rest) from rfl,
          ← hB]
        rw [parseFields_ser fuel (JsonObj.cons k v t) rest (by simp)
          (by simp [sizeJ] at hf; omega)]

/-- Round trip for a nonempty comma-separated element list followed by the
closing bracket. -/
theorem parseItems_ser : ∀ (fuel : Nat) (items : JsonArr) (rest : List Char),
    items ≠ .nil → sizeA items ≤ fuel →
    parseItems fuel (serItems items ++ (']' :: rest)) = some (items, rest)
  | 0, items, _rest, hne, hf => by
    cases items with
    | nil => exact absurd rfl hne
    | cons h t => exact absurd hf (by simp only [sizeA]; omega)
  | fuel + 1, items, rest, hne, hf => by
    cases items with
    | nil => exact absurd rfl hne
    | cons h t =>
      cases t with
      | nil =>
        rw [show serItems (JsonArr.cons h JsonArr.nil) ++ (']' :: rest)
            = serJson h ++ (']' :: rest) from rfl]
        have h1 : parseVal fuel (serJson h ++ (']' :: rest)) = some (h, ']' :: rest) :=
          parseVal_ser fuel h (']' :: rest) (by simp [sizeA] at hf; omega)
            (delimited_cons _ _ (by decide))
        simp [parseItems, h1, skipWs_cons, isWsChar]
      | cons h2 t2 =>
        rw [show serItems (JsonArr.cons h (JsonArr.cons h2 t2)) ++ (']' :: rest)
            = serJson h
              ++ (',' :: (serItems (JsonArr.cons h2 t2) ++ (']' :: rest))) from by
          simp [serItems]]
        have h1 : parseVal fuel
            (serJson h ++ (',' :: (serItems (JsonArr.cons h2 t2) ++ (']' :: rest))))
            = some (h, ',' :: (serItems (JsonArr.cons h2 t2) ++ (']' :: rest))) :=
          parseVal_ser fuel h _ (by simp [sizeA] at hf; omega)
            (delimited_cons _ _ (by decide))
        have h2p : parseItems fuel (serItems (JsonArr.cons h2 t2) ++ (']' :: rest))
            = some (.cons h2 t2, rest) :=
          parseItems_ser fuel (JsonArr.cons h2 t2) rest (by simp)
            (by simp [sizeA] at hf ⊢; omega)
        simp [parseItems, h1, h2p, skipWs_cons, isWsChar]

/-- Round trip for a nonempty comma-separated member list followed by the
closing brace. -/
theorem parseFields_ser : ∀ (fuel : Nat) (fields : JsonObj) (rest : List Char),
    fields ≠ .nil → sizeO fields ≤ fuel →
    parseFields fuel (serFields fields ++ ('}' :: rest)) = some (fields, rest)
  | 0, fields, _rest, hne, hf => by
    cases fields with
    | nil => exact absurd rfl hne
    | cons k v t => exact absurd hf (by simp only [sizeO]; omega)
  | fuel + 1, fields, rest, hne, hf => by
    cases fields with
    | nil => exact absurd rfl hne
    | cons k v t =>
      cases t with
      | nil =>
        rw [show serFields (JsonObj.cons k v JsonObj.nil) ++ ('}' :: rest)
            = '"' :: ((k.data.map escChar).flatten
              ++ '"' :: (':' :: (serJson v ++ ('}' :: rest)))) from by
          simp [serFields, serString]]
        have h1 : parseVal fuel (serJson v ++ ('}' :: rest))
            = some (v, '}' :: rest) :=
          parseVal_ser fuel v ('}' :: rest) (by simp [sizeO] at hf; omega)
            (delimited_cons _ _ (by decide))
        simp [parseFields, skipWs_cons, isWsChar, parseStringAux_escaped, h1,
          string_mk_data]
      | cons k2 v2 t2 =>
        rw [show serFields (JsonObj.cons k v (JsonObj.cons k2 v2 t2)) ++ ('}' :: rest)
            = '"' :: ((k.data.map escChar).flatten
              ++ '"' :: (':' :: (serJson v
                ++ (',' :: (serFields (JsonObj.cons k2 v2 t2) ++ ('}' :: rest))))))
            from by simp [serFields, serString]]
        have h1 : parseVal fuel (serJson v
            ++ (',' :: (serFields (JsonObj.cons k2 v2 t2) ++ ('}' :: rest))))
            = some (v, ',' :: (serFields (JsonObj.cons k2 v2 t2) ++ ('}' :: rest))) :=
          parseVal_ser fuel v _ (by simp [sizeO] at hf; omega)
            (delimited_cons _ _ (by decide))
        have h2p : parseFields fuel
            (serFields (JsonObj.cons k2 v2 t2) ++ ('}' :: rest))
            = some (.cons k2 v2 t2, rest) :=
          parseFields_ser fuel (JsonObj.cons k2 v2 t2) rest (by simp)
            (by simp [sizeO] at hf ⊢; omega)
        simp [parseFields, skipWs_cons, isWsChar, parseStringAux_escaped, h1, h2p,
          string_mk_data]
end

mutual
/-- A value's size is bounded by its serialized length. -/
theorem sizeJ_le_serLen : ∀ j : Json, sizeJ j ≤ (serJson j).length
  | .null => by simp [sizeJ, serJson]
  | .bool b => by cases b <;> simp [sizeJ, serJson]
  | .num n => by
    by_cases hn : n < 0
    · simp [sizeJ, serJson, intSer, hn]
    · have := natSer_ne_nil n.toNat
      have hp : 0 < (natSer n.toNat).length := List.length_pos.2 this
      simp [sizeJ, serJson, intSer, hn]
      omega
  | .str s => by simp [sizeJ, serJson, serString]
  | .arr items => by
    have := sizeA_le_serLen items
    simp [sizeJ, serJson]
    omega
  | .obj fields => by
    have := sizeO_le_serLen fields
    simp [sizeJ, serJson]
    omega

/-- An element list's size is bounded by its serialized length plus
one. -/
theorem sizeA_le_serLen : ∀ items : JsonArr,
    sizeA items ≤ (serItems items).length + 1
  | .nil => by simp [sizeA]
  | .cons h .nil => by
    have := sizeJ_le_serLen h
    simp [sizeA, serItems]
    omega
  | .cons h (.cons h2 t2) => by
    have hh := sizeJ_le_serLen h
    have ht := sizeA_le_serLen (JsonArr.cons h2 t2)
    simp [sizeA, serItems] at *
    omega

/-- A member list's size is bounded by its serialized length plus one. -/
theorem sizeO_le_serLen : ∀ fields : JsonObj,
    sizeO fields ≤ (serFields fields).length + 1
  | .nil => by simp [sizeO]
  | .cons k v .nil => by
    have := sizeJ_le_serLen v
    simp [sizeO, serFields]
    omega
  | .cons k v (.cons k2 v2 t2) => by
    have hv := sizeJ_le_serLen v
    have ht := sizeO_le_serLen (JsonObj.cons k2 v2 t2)
    simp [sizeO, serFields] at *
    omega
end

/-- `JSON.parse` recovers any serialized value: the codec round-trips at
the line level. -/
theorem parseJson_serJson (j : Json) : parseJson (serJson j) = some j := by
  unfold parseJson
  have h1 : parseVal ((serJson j).length + 1) (serJson j ++ []) = some (j, []) :=
    parseVal_ser _ j [] (by have := sizeJ_le_serLen j; omega) delimited_nil
  rw [List.append_nil] at h1
  rw [h1]
  simp [skipWs]

theorem escChar_no_nl (c : Char) : '\n' ∉ escChar c := by
  by_cases h1 : c = '"'
  · simp [escChar, h1]
  · by_cases h2 : c = '\\'
    · simp [escChar, h1, h2]
    · by_cases h3 : c = '\n'
      · simp [escChar, h1, h2, h3]
      · by_cases h4 : c = '\t'
        · simp [escChar, h1, h2, h3, h4]
        · by_cases h5 : c = '\r'
          · simp [escChar, h1, h2, h3, h4, h5]
          · simp [escChar, h1, h2, h3, h4, h5, Ne.symm h3]

theorem natSer_no_nl (m : Nat) : '\n' ∉ natSer m := by
  intro hmem
  exact absurd (natSer_digits m _ hmem) (by decide)

theorem serString_no_nl (s : String) : '\n' ∉ serString s := by
  intro hmem
  simp only [serString] at hmem
  rw [List.mem_append, List.mem_cons, List.mem_singleton, List.mem_flatten] at hmem
  rcases hmem with (h | ⟨l, hl, hm⟩) | h
  · exact absurd h (by decide)
  · rw [List.mem_map] at hl
    obtain ⟨c, _, rfl⟩ := hl
    exact escChar_no_nl c hm
  · exact absurd h (by decide)

mutual
/-- Serialized JSON never contains a raw newline (newlines in strings are
escaped), so one frame occupies one line of the stream. -/
theorem serJson_no_nl : ∀ j : Json, '\n' ∉ serJson j
  | .null => by decide
  | .bool b => by cases b <;> decide
  | .num n => by
    intro hmem
    simp only [serJson, intSer] at hmem
    by_cases hn : n < 0
    · rw [if_pos hn, List.mem_cons] at hmem
      rcases hmem with h | h
      · exact absurd h (by decide)
      · exact natSer_no_nl _ h
    · rw [if_neg hn] at hmem
      exact natSer_no_nl _ hmem
  | .str s => serString_no_nl s
  | .arr items => by
    intro hmem
    simp only [serJson, List.mem_cons, List.mem_append, List.mem_singleton] at hmem
    rcases hmem with (h | h) | h
    · exact absurd h (by decide)
    · exact serItems_no_nl items h
    · exact absurd h (by decide)
  | .obj fields => by
    intro hmem
    simp only [serJson, List.mem_cons, List.mem_append, List.mem_singleton] at hmem
    rcases hmem with (h | h) | h
    · exact absurd h (by decide)
    · exact serFields_no_nl fields h
    · exact absurd h (by decide)

theorem serItems_no_nl : ∀ items : JsonArr, '\n' ∉ serItems items
  | .nil => by decide
  | .cons h .nil => serJson_no_nl h
  | .cons h (.cons h2 t2) => by
    intro hmem
    simp only [serItems, List.mem_append, List.mem_cons] at hmem
    rcases hmem with hm | hm | hm
    · exact serJson_no_nl h hm
    · exact absurd hm (by decide)
    · exact serItems_no_nl (JsonArr.cons h2 t2) hm

theorem serFields_no_nl : ∀ fields : JsonObj, '\n' ∉ serFields fields
  | .nil => by decide
  | .cons k v .nil => by
    intro hmem
    simp only [serFields, List.mem_append, List.mem_cons] at hmem
    rcases hmem with hm | hm | hm
    · exact serString_no_nl k hm
    · exact absurd hm (by decide)
    · exact serJson_no_nl v hm
  | .cons k v (.cons k2 v2 t2) => by
    intro hmem
    simp only [serFields, List.mem_append, List.mem_cons] at hmem
    rcases hmem with (hm | hm | hm) | (hm | hm)
    · exact serString_no_nl k hm
    · exact absurd hm (by decide)
    · exact serJson_no_nl v hm
    · exact absurd hm (by decide)
    · exact serFields_no_nl (JsonObj.cons k2 v2 t2) hm
end

/-- The buffer split isolates a newline-free line followed by a newline. -/
theorem splitBuffer_line (l tail : List Char) (h : '\n' ∉ l) :
    splitBuffer (l ++ '\n' :: tail)
      = (l :: (splitBuffer tail).1, (splitBuffer tail).2) := by
  induction l with
  | nil => simp [splitBuffer]
  | cons c t ih =>
    have hc : ¬c = '\n' := fun hcc => h (by simp [hcc])
    have ht : '\n' ∉ t := fun htt => h (by simp [htt])
    simp [splitBuffer, hc, ih ht]

/-- Trimming is the identity on a line that starts and ends with
non-whitespace. -/
theorem trimChars_of_ends (c1 : Char) (mid : List Char) (c2 : Char)
    (h1 : isWsChar c1 = false) (h2 : isWsChar c2 = false) :
    trimChars (c1 :: (mid ++ [c2])) = c1 :: (mid ++ [c2]) := by
  simp [trimChars, List.dropWhile_cons, h1, h2, List.reverse_append,
    List.reverse_cons]

/-- C9: the frame codec round-trips.  Encoding a frame (a JSON object
with a `type` discriminant) as `send` does — `JSON.stringify` plus a
newline — and then decoding the result as `flush` does — newline split,
trim, `JSON.parse` — yields exactly the original frame (hence the same
discriminant and the same fields), with nothing left in the buffer. -/
theorem c9_frame_codec_round_trip (fields : JsonObj)
    (_hty : getField (.obj fields) "type" ≠ none) :
    decodeLines (encodeFrame (.obj fields)) = ([Json.obj fields], []) := by
  have hser : serJson (Json.obj fields) = '{' :: (serFields fields ++ ['}']) := by
    simp [serJson]
  have htrim : trimChars (serJson (Json.obj fields)) = serJson (Json.obj fields) := by
    rw [hser]
    exact trimChars_of_ends '{' (serFields fields) '}' (by decide) (by decide)
  have hnempty : serJson (Json.obj fields) ≠ [] := by
    rw [hser]
    simp
  have hsplit : splitBuffer (serJson (Json.obj fields) ++ '\n' :: [])
      = ([serJson (Json.obj fields)], []) := by
    rw [splitBuffer_line _ _ (serJson_no_nl _)]
    simp [splitBuffer]
  simp [decodeLines, encodeFrame, hsplit, List.filterMap, htrim, hnempty,
    parseJson_serJson]

/-- Closed witness for C9 at a concrete `ping` frame. -/
theorem c9_witness :
    (getField (.obj (objOf [("type", Json.str "ping"), ("id", Json.str "7")]))
        "type" ≠ none) ∧
    decodeLines (encodeFrame
        (.obj (objOf [("type", Json.str "ping"), ("id", Json.str "7")])))
      = ([Json.obj (objOf [("type", Json.str "ping"), ("id", Json.str "7")])],
        []) :=
  ⟨by decide,
    c9_frame_codec_round_trip
      (objOf [("type", Json.str "ping"), ("id", Json.str "7")]) (by decide)⟩

end Bridge
